import Mathlib

/-!
Verification of the textus ElasticSearch datastore core
(`src/js/datastore/dataStore-elastic.js`) against its specification.

The JavaScript source is shallowly embedded: text is `List Char`, the
asynchronous callback style is turned into explicit result values, the
external document store is a record of oracles, and the source's
`while` loop in `createTextChunks` becomes a fuel-indexed recursion
(the fuel budget `length + 1` is enough for every terminating run of
the loop, so a `none` result means the JavaScript loop never ends).
-/

/-- A JavaScript runtime value as far as the `date` field is concerned:
either a numeric timestamp or a function object.  The source assigns
`Date.now` (without invoking it), which evaluates to the function itself. -/
inductive JsValue : Type
  | num (n : Int)
  | fn (name : String)
deriving DecidableEq, Repr

/-- The value of the JavaScript expression `Date.now` (no parentheses):
a reference to the function, not the timestamp it would return. -/
def jsDateNow : JsValue := JsValue.fn "Date.now"

/-- A JavaScript `Error` object; the source only ever reads and writes
its `message` property. -/
structure JsError : Type where
  message : String
deriving DecidableEq, Repr

/-- An input text fragment `{sequence, text}` accepted by `importData`. -/
structure TextPart : Type where
  sequence : Int
  text : List Char
deriving DecidableEq, Repr

/-- A chunk `{text, offset}` as pushed by `createTextChunks`. -/
structure Chunk : Type where
  text : List Char
  offset : Nat
deriving DecidableEq, Repr

/-- A stored record `{textId, text, start, end}`, optionally carrying the
store-assigned `id` that `fetchText` copies from `hit._id`. -/
structure SourceRec : Type where
  textId : String
  text : List Char
  start : Int
  end_ : Int
  id : Option String
deriving DecidableEq, Repr, Inhabited

/-- `data.text.sort(function(a, b) { return a.sequence - b.sequence; })`:
a stable ascending sort on `sequence`. -/
def sortBySequence (parts : List TextPart) : List TextPart :=
  List.insertionSort (fun a b => a.sequence ≤ b.sequence) parts

/-- `chunks.sort(function(a, b) { return a.start - b.start; })`:
a stable ascending sort on `start`. -/
def sortByStart (chunks : List SourceRec) : List SourceRec :=
  List.insertionSort (fun a b => a.start ≤ b.start) chunks

/-- The merge step of `createTextChunks`: sort the parts by `sequence`,
extract the text fields and join them. -/
def mergeParts (parts : List TextPart) : List Char :=
  ((sortBySequence parts).map (fun p => p.text)).flatten

/-- Search downward from position `j` for a space character, as the
backwards scan of JavaScript `String.prototype.lastIndexOf(" ", j)`. -/
def lastSpaceFrom (s : List Char) : Nat → Option Nat
  | 0 => if s.get? 0 = some ' ' then some 0 else none
  | j + 1 => if s.get? (j + 1) = some ' ' then some (j + 1) else lastSpaceFrom s j

/-- `text.lastIndexOf(" ", k)`: the greatest index `i ≤ k` holding a
space, if any.  JavaScript clamps the search start into the string, which
the `min` mirrors; positions beyond the end never match anyway. -/
def lastIndexOfSpace (s : List Char) (k : Nat) : Option Nat :=
  lastSpaceFrom s (min k s.length)

/-- The `while (text != "")` loop of `createTextChunks`, indexed by fuel.
The three branches follow the source exactly:
`lastIndexOf` returning `-1` sets `length = text.length` but pushes
nothing and consumes nothing, so the loop state repeats unchanged
(the recursion only spends fuel); a space at index `0` pushes the whole
remaining text and clears it; otherwise the prefix before the space is
pushed and the suffix (beginning with the space) is kept. -/
def chunkLoop (maxSize : Nat) : Nat → List Char → Nat → Option (List Chunk)
  | 0, _, _ => none
  | fuel + 1, text, offset =>
    if text = [] then some []
    else
      match lastIndexOfSpace text maxSize with
      | none => chunkLoop maxSize fuel text offset
      | some 0 => some [⟨text, offset⟩]
      | some (l + 1) =>
        (chunkLoop maxSize fuel (text.drop (l + 1)) (offset + (l + 1))).map
          (fun rest => ⟨text.take (l + 1), offset⟩ :: rest)

/-- `createTextChunks(maxSize, data)`: merge the parts and run the
splitting loop.  A terminating run of the JavaScript loop performs at
most `length + 1` iterations (each push consumes at least one character),
so `none` means the loop runs forever. -/
def createTextChunks (maxSize : Nat) (parts : List TextPart) : Option (List Chunk) :=
  let text := mergeParts parts
  chunkLoop maxSize (text.length + 1) text 0

/-- The result object of `joinTextChunksAndTrim`: the JavaScript object
carries `start`/`end` keys in the empty and bounded cases and omits them
in the unbounded case, which the `Option` fields model. -/
structure TrimResult : Type where
  text : List Char
  start : Option Int
  end_ : Option Int
deriving DecidableEq, Repr

/-- JavaScript `String.prototype.substr(start, length)` on a character
list: a negative start counts from the end, and the result length is
clipped to the remaining characters. -/
def jsSubstr (s : List Char) (start length : Int) : List Char :=
  let size : Int := s.length
  let intStart := if start < 0 then max (size + start) 0 else start
  let resultLength := min (max length 0) (size - intStart)
  if resultLength ≤ 0 then [] else (s.drop intStart.toNat).take resultLength.toNat

/-- `joinTextChunksAndTrim(start, end, chunks)`: empty input short-circuits
to `{text: "", start: 0, end: 0}`; otherwise the chunks are sorted by
`start`, their texts joined, and — when both bounds are non-null — the
join is cut with `substr(start - chunks[0].start, end - start)`. -/
def joinTextChunksAndTrim (start0 end0 : Option Int) (chunks : List SourceRec) :
    TrimResult :=
  if chunks.length = 0 then ⟨[], some 0, some 0⟩
  else
    let sorted := sortByStart chunks
    let joined := (sorted.map (fun c => c.text)).flatten
    match start0, end0 with
    | some s, some e =>
      ⟨jsSubstr joined (s - (sorted.headD default).start) (e - s), some s, some e⟩
    | _, _ => ⟨joined, none, none⟩

/-- The query object built by `buildRangeQuery`: a `bool`/`must` list
holding a text match on `textId`, `range start lt`, `range end gte`,
plus the result-size cap and target index of the source object. -/
structure RangeQuery : Type where
  textIdMust : String
  startLt : Int
  endGte : Int
  size : Nat
  index : String
deriving DecidableEq, Repr

/-- `buildRangeQuery(textId, start, end)` from the source: `end` becomes
the strict upper bound on `start` and `start` the inclusive lower bound
on `end`; the size cap is the literal `1000000`. -/
def buildRangeQuery (textusIndex textId : String) (start end0 : Int) : RangeQuery :=
  ⟨textId, end0, start, 1000000, textusIndex⟩

/-- Modelled from the spec: the document store is an external
collaborator, so the meaning of the query object is taken from the
spec's reading of the `bool`/`must` composition — a record is selected
when its `textId` matches and `record.start < end` and
`record.end >= start` hold. -/
def matchesRangeQuery (q : RangeQuery) (r : SourceRec) : Bool :=
  r.textId == q.textIdMust && r.start < q.startLt && q.endGte ≤ r.end_

/-- One `{type, list}` entry of the `lists` argument of `indexArrays`. -/
structure TypedList (α : Type) : Type where
  type : String
  list : List α
deriving DecidableEq, Repr

/-- `indexArray(index, type, list, callback)`, with the store's
`client.index` abstracted into `write`.  Returns the records the loop
attempted to write, in order, together with the error the callback
receives (`none` on success).  A failing write is the last attempt. -/
def indexArray {α : Type} (write : α → Option JsError) : List α → List α × Option JsError
  | [] => ([], none)
  | item :: rest =>
    match write item with
    | some e => ([item], some e)
    | none =>
      let r := indexArray write rest
      (item :: r.1, r.2)

/-- `indexArrays(index, lists, callback)`: run `indexArray` over each
typed collection in order; on the first failure replace the error's
`message` with `"Error while indexing " + type` and stop. -/
def indexArrays {α : Type} (write : String → α → Option JsError) :
    List (TypedList α) → List (String × α) × Option JsError
  | [] => ([], none)
  | w :: rest =>
    match indexArray (write w.type) w.list with
    | (tr, some e) =>
      (tr.map (fun it => (w.type, it)), some { e with message := "Error while indexing " ++ w.type })
    | (tr, none) =>
      let r := indexArrays write rest
      (tr.map (fun it => (w.type, it)) ++ r.1, r.2)

/-- All records of a list of typed collections, each tagged with its
collection's type, in the supplied order. -/
def typedItems {α : Type} : List (TypedList α) → List (String × α)
  | [] => []
  | w :: rest => w.list.map (fun it => (w.type, it)) ++ typedItems rest

/-- The metadata structure written under type `"structure"`; only the
`date` field is touched by the source, the rest is opaque caller data. -/
structure Metadata : Type where
  date : JsValue
  payload : String
deriving DecidableEq, Repr

/-- A semantics or typography record of an import: an opaque payload on
which `importData` stamps the minted `textId`. -/
structure Annot : Type where
  payload : String
  textId : String
deriving DecidableEq, Repr

/-- A record handed to `indexArrays` by `importData`: either a text
chunk record or an annotation record. -/
inductive IndexedRecord : Type
  | text (r : SourceRec)
  | ann (a : Annot)
deriving DecidableEq, Repr

/-- The `data` argument of `importData`. -/
structure ImportData : Type where
  metadata : Metadata
  text : List TextPart
  semantics : List Annot
  typography : List Annot
deriving DecidableEq, Repr

/-- The store operations `importData` uses: `client.index` on the
`"structure"` type (returning the minted `_id`), `client.index` on the
derived records, and `client.refresh`. -/
structure Store : Type where
  indexStructure : Metadata → Except JsError String
  writeRecord : String → IndexedRecord → Option JsError
  refresh : Option JsError

/-- `textChunkSize` from the source: the maximum stored chunk size. -/
def textChunkSize : Nat := 1000

/-- Everything observable about one `importData` run: the structure
record written (with its mutated `date`), the records the pipeline
attempted, the error the pipeline's continuation received, and the two
arguments of the caller's callback. -/
structure ImportOutcome : Type where
  structureWritten : Metadata
  attempted : List (String × IndexedRecord)
  pipelineErr : Option JsError
  cbErr : Option JsError
  cbTextId : Option String
deriving DecidableEq, Repr

/-- `importData(data, callback)`: stamp `date` with the uninvoked
`Date.now`, write the structure record, derive the three typed
collections, run `indexArrays` and refresh.  `none` means the chunking
loop never terminates, so no callback is ever invoked.  The refresh
continuation's `err` parameter shadows the indexing error, so the
caller's callback receives the refresh error, not `pipelineErr`. -/
def importData (store : Store) (data : ImportData) : Option ImportOutcome :=
  let md := { data.metadata with date := jsDateNow }
  match store.indexStructure md with
  | .error e => some ⟨md, [], none, some e, none⟩
  | .ok textId =>
    match createTextChunks textChunkSize data.text with
    | none => none
    | some chunks =>
      let dataToIndex : List (TypedList IndexedRecord) :=
        [⟨"text", chunks.map (fun c =>
            IndexedRecord.text
              ⟨textId, c.text, (c.offset : Int), (c.offset : Int) + c.text.length, none⟩)⟩,
         ⟨"semantics", data.semantics.map (fun a => IndexedRecord.ann { a with textId := textId })⟩,
         ⟨"typography", data.typography.map (fun a => IndexedRecord.ann { a with textId := textId })⟩]
      let res := indexArrays store.writeRecord dataToIndex
      some ⟨md, res.1, res.2, store.refresh, some textId⟩

/-- The store operations `updateTextMetadata` uses. -/
structure MetaStore : Type where
  indexMeta : String → Metadata → Option JsError
  getMeta : String → Except JsError Metadata

/-- `updateTextMetadata(textId, newMetadata, callback)`: stamp `date`
with the uninvoked `Date.now`, write the structure record under the
given id, then (through the always-succeeding bibliographic stub)
re-read and return the stored metadata.  The first component is the
record written; the second is the callback's argument pair. -/
def updateTextMetadata (store : MetaStore) (textId : String) (newMetadata : Metadata) :
    Metadata × (Option JsError × Option Metadata) :=
  let md := { newMetadata with date := jsDateNow }
  (md,
    match store.indexMeta textId md with
    | some e => (some e, none)
    | none =>
      match store.getMeta textId with
      | .error e => (some e, none)
      | .ok doc => (none, some doc))

/-- One search hit `{_type, _id, _source}` of a store search result. -/
structure Hit : Type where
  type_ : String
  id_ : String
  source_ : SourceRec
deriving DecidableEq, Repr

/-- The data object `fetchText` hands to its callback. -/
structure FetchData : Type where
  textId : String
  text : List Char
  typography : List SourceRec
  semantics : List SourceRec
  start : Option Int
  end_ : Option Int
deriving DecidableEq, Repr

/-- The hit-classification loop of `fetchText` and the final callback
invocation, for a search that succeeded with the given hits.  The
`error` variable is overwritten by each unrecognized hit type and is
passed to the callback alongside the fully assembled data object. -/
def fetchText (textId : String) (start0 end0 : Option Int) (hits : List Hit) :
    Option String × FetchData :=
  let st := hits.foldl
    (fun (st : List SourceRec × List SourceRec × List SourceRec × Option String) (hit : Hit) =>
      let (tc, ty, se, er) := st
      if hit.type_ = "text" then (tc ++ [hit.source_], ty, se, er)
      else if hit.type_ = "typography" then
        (tc, ty ++ [{ hit.source_ with id := some hit.id_ }], se, er)
      else if hit.type_ = "semantics" then
        (tc, ty, se ++ [{ hit.source_ with id := some hit.id_ }], er)
      else (tc, ty, se, some ("Unknown result type! '" ++ hit.type_ ++ "'.")))
    ([], [], [], none)
  (st.2.2.2, ⟨textId, (joinTextChunksAndTrim start0 end0 st.1).text, st.2.1, st.2.2.1, start0, end0⟩)

/-- A store whose structure write mints id `"t1"`, whose writes of
`"text"`-typed records all fail with message `"boom"`, and whose
refresh succeeds. -/
def failTextStore : Store :=
  ⟨fun _ => .ok "t1", fun ty _ => if ty = "text" then some ⟨"boom"⟩ else none, none⟩

/-- A small import: one text part `"ab cd"`, no annotations. -/
def importEx : ImportData := ⟨⟨JsValue.num 0, "m"⟩, [⟨0, ("ab cd").toList⟩], [], []⟩

/-- The outcome of running `importData` on `failTextStore` and
`importEx`: the first chunk write fails, yet the callback pair is
`(null, "t1")`. -/
def importExOutcome : ImportOutcome :=
  ⟨⟨jsDateNow, "m"⟩,
   [("text", IndexedRecord.text ⟨"t1", ("ab").toList, 0, 2, none⟩)],
   some ⟨"Error while indexing text"⟩, none, some "t1"⟩

/-- A chunk record covering `[0, 3)` of `"hello"`. -/
def recHel : SourceRec := ⟨"t", ("hel").toList, 0, 3, none⟩

/-- A chunk record covering `[3, 5)` of `"hello"`. -/
def recLo : SourceRec := ⟨"t", ("lo").toList, 3, 5, none⟩

/-- A search result with one text chunk, one typography annotation and
one hit of the unrecognized type `"wibble"`. -/
def hitsEx : List Hit :=
  [⟨"text", "id1", ⟨"t1", ("hello").toList, 0, 5, none⟩⟩,
   ⟨"typography", "id2", ⟨"t1", [], 1, 2, none⟩⟩,
   ⟨"wibble", "id3", ⟨"t1", [], 0, 1, none⟩⟩]

/-- A write oracle that fails exactly on the `"text"`-typed record
`"B"`. -/
def failOnB : String → String → Option JsError :=
  fun ty it => if ty = "text" ∧ it = "B" then some ⟨"boom"⟩ else none

/-- The records, taken in the given order, tile the half-open range
beginning at `o`: each record starts where the previous one ended and
its `end` is its `start` plus its text length. -/
def contiguousFrom : Int → List SourceRec → Bool
  | _, [] => true
  | o, r :: rest =>
    r.start == o && r.end_ == o + r.text.length && contiguousFrom r.end_ rest

theorem lastSpaceFrom_le (s : List Char) :
    ∀ j i : Nat, lastSpaceFrom s j = some i → i ≤ j := by
  intro j
  induction j with
  | zero =>
    intro i h
    simp only [lastSpaceFrom] at h
    split at h
    · injection h with h
      omega
    · exact absurd h (by simp)
  | succ n ih =>
    intro i h
    simp only [lastSpaceFrom] at h
    split at h
    · injection h with h
      omega
    · have := ih i h
      omega

theorem lastIndexOfSpace_le (s : List Char) (k i : Nat) :
    lastIndexOfSpace s k = some i → i ≤ k :=
  fun h => le_trans (lastSpaceFrom_le s _ i h) (min_le_left _ _)

theorem chunkLoop_none_of_no_space (maxSize : Nat) (t : List Char) (hne : t ≠ [])
    (hns : lastIndexOfSpace t maxSize = none) :
    ∀ fuel offset : Nat, chunkLoop maxSize fuel t offset = none := by
  intro fuel
  induction fuel with
  | zero => intro o; rfl
  | succ n ih =>
    intro o
    simp only [chunkLoop, if_neg hne, hns]
    exact ih o

theorem chunkLoop_size (maxSize : Nat) :
    ∀ (fuel : Nat) (t : List Char) (o : Nat) (chunks : List Chunk),
      chunkLoop maxSize fuel t o = some chunks →
      ∀ c ∈ chunks, c.text.length ≤ maxSize ∨ lastIndexOfSpace c.text maxSize = some 0 := by
  intro fuel
  induction fuel with
  | zero =>
    intro t o chunks h
    exact absurd h (by simp [chunkLoop])
  | succ n ih =>
    intro t o chunks h c hc
    simp only [chunkLoop] at h
    by_cases ht : t = []
    · rw [if_pos ht] at h
      injection h with h
      subst h
      exact absurd hc (by simp)
    · rw [if_neg ht] at h
      cases hls : lastIndexOfSpace t maxSize with
      | none =>
        rw [hls] at h
        exact ih t o chunks h c hc
      | some i =>
        rw [hls] at h
        cases i with
        | zero =>
          injection h with h
          subst h
          have hct : c = ⟨t, o⟩ := by simpa using hc
          right
          rw [hct]
          exact hls
        | succ l =>
          rw [Option.map_eq_some'] at h
          obtain ⟨rest, hrest, hchunks⟩ := h
          subst hchunks
          cases hc with
          | head =>
            left
            have hle : l + 1 ≤ maxSize := lastIndexOfSpace_le t maxSize (l + 1) hls
            simp only [List.length_take]
            omega
          | tail _ hmem => exact ih _ _ rest hrest c hmem

theorem indexArray_ok {α : Type} (write : α → Option JsError) :
    ∀ l : List α, (∀ it ∈ l, write it = none) → indexArray write l = (l, none) := by
  intro l
  induction l with
  | nil => intro _; rfl
  | cons a t ih =>
    intro h
    simp only [indexArray, h a (by simp)]
    rw [ih (fun it hit => h it (by simp [hit]))]

theorem indexArray_fail {α : Type} (write : α → Option JsError) (item : α) (e : JsError)
    (hitem : write item = some e) :
    ∀ l1 : List α, (∀ it ∈ l1, write it = none) →
      ∀ l2 : List α, indexArray write (l1 ++ item :: l2) = (l1 ++ [item], some e) := by
  intro l1
  induction l1 with
  | nil =>
    intro _ l2
    simp only [List.nil_append, indexArray, hitem]
  | cons a t ih =>
    intro h l2
    simp only [List.cons_append, indexArray, h a (by simp)]
    simp only [List.append_eq]
    rw [ih (fun it hit => h it (by simp [hit])) l2]

theorem indexArrays_ok {α : Type} (write : String → α → Option JsError) :
    ∀ lists : List (TypedList α),
      (∀ w ∈ lists, ∀ it ∈ w.list, write w.type it = none) →
      indexArrays write lists = (typedItems lists, none) := by
  intro lists
  induction lists with
  | nil => intro _; rfl
  | cons w rest ih =>
    intro h
    simp only [indexArrays]
    rw [indexArray_ok (write w.type) w.list (h w (by simp))]
    rw [ih (fun w' hw' it hit => h w' (by simp [hw']) it hit)]
    rfl

theorem indexArrays_fail {α : Type} (write : String → α → Option JsError)
    (ty : String) (l1 : List α) (item : α) (l2 : List α) (e : JsError)
    (h1 : ∀ it ∈ l1, write ty it = none) (hitem : write ty item = some e) :
    ∀ post : List (TypedList α), ∀ pre : List (TypedList α),
      (∀ w ∈ pre, ∀ it ∈ w.list, write w.type it = none) →
      indexArrays write (pre ++ ⟨ty, l1 ++ item :: l2⟩ :: post) =
        (typedItems pre ++ (l1 ++ [item]).map (fun it => (ty, it)),
         some ⟨"Error while indexing " ++ ty⟩) := by
  intro post pre
  induction pre with
  | nil =>
    intro _
    simp only [List.nil_append, indexArrays]
    rw [indexArray_fail (write ty) item e hitem l1 h1 l2]
    rfl
  | cons w rest ih =>
    intro h
    simp only [List.cons_append, indexArrays]
    rw [indexArray_ok (write w.type) w.list (h w (by simp))]
    dsimp only
    simp only [List.append_eq]
    rw [ih (fun w' hw' it hit => h w' (by simp [hw']) it hit)]
    simp [typedItems]

theorem jsSubstr_zero_length (s : List Char) : jsSubstr s 0 (s.length : Int) = s := by
  have h0 : ¬ ((0 : Int) < 0) := by omega
  simp only [jsSubstr, if_neg h0]
  have hmax : max ((s.length : Int)) 0 = (s.length : Int) :=
    max_eq_left (Int.natCast_nonneg s.length)
  rw [sub_zero, hmax, min_self]
  by_cases hz : ((s.length : Int)) ≤ 0
  · rw [if_pos hz]
    have hlen : s.length = 0 := by omega
    simp [List.length_eq_zero.mp hlen]
  · rw [if_neg hz]
    simp [Int.toNat_natCast, List.take_length]

instance : IsTotal SourceRec (fun a b => a.start ≤ b.start) :=
  ⟨fun a b => le_total a.start b.start⟩

instance : IsTrans SourceRec (fun a b => a.start ≤ b.start) :=
  ⟨fun _ _ _ h1 h2 => le_trans h1 h2⟩

theorem sortByStart_ne_nil {chunks : List SourceRec} (h : chunks ≠ []) :
    sortByStart chunks ≠ [] := by
  intro hs
  apply h
  have := List.length_insertionSort (fun a b : SourceRec => a.start ≤ b.start) chunks
  rw [sortByStart] at hs
  rw [hs] at this
  exact List.length_eq_zero.mp this.symm

/-- C1: the code violates the claim.  With a store whose structure write
succeeds, whose text-chunk write fails, and whose refresh succeeds,
`importData` reports the annotated pipeline error to the `indexArrays`
continuation, yet the caller's callback receives `(null, textId)` —
success — because the refresh callback's `err` parameter shadows the
indexing error. -/
theorem importData_reports_success_after_failed_write :
    importData failTextStore importEx = some importExOutcome ∧
    importExOutcome.pipelineErr = some ⟨"Error while indexing text"⟩ ∧
    importExOutcome.cbErr = none ∧
    importExOutcome.cbTextId = some "t1" := by decide

/-- C2 counterexample: on the spec's own example input, `createTextChunks`
does not return the two chunks `[{offset:0,text:"the "},{offset:4,text:"hello "}]`
the claim names. -/
theorem createTextChunks_example_claim_false :
    createTextChunks 6 [⟨1, ("hello ").toList⟩, ⟨0, ("the ").toList⟩] ≠
      some [⟨("the ").toList, 0⟩, ⟨("hello ").toList, 4⟩] := by decide

/-- C2 amended: the parts are merged in ascending sequence order into
`"the hello "`, but the cut leaves each found space at the head of the
following chunk, so the result is the three chunks
`[{offset:0,text:"the"},{offset:3,text:" hello"},{offset:9,text:" "}]`. -/
theorem createTextChunks_example_actual :
    mergeParts [⟨1, ("hello ").toList⟩, ⟨0, ("the ").toList⟩] = ("the hello ").toList ∧
    createTextChunks 6 [⟨1, ("hello ").toList⟩, ⟨0, ("the ").toList⟩] =
      some [⟨("the").toList, 0⟩, ⟨(" hello").toList, 3⟩, ⟨(" ").toList, 9⟩] := by decide

/-- C3 counterexample: the claim's size bound with its sole no-space
exception fails.  With `maxSize = 2` and input `" abcd ef"`, the
rightmost space at or before index 2 is at index 0, so the whole
suffix — 8 characters containing two spaces, not a single unsplit
token — is emitted as one chunk. -/
theorem createTextChunks_size_claim_false :
    ¬ (∀ (parts : List TextPart) (maxSize : Nat), 1 ≤ maxSize →
        ∀ chunks : List Chunk, createTextChunks maxSize parts = some chunks →
          ∀ c ∈ chunks, c.text.length ≤ maxSize ∨ lastIndexOfSpace c.text maxSize = none) := by
  intro h
  have hres := h [⟨0, (" abcd ef").toList⟩] 2 (by decide)
    [⟨(" abcd ef").toList, 0⟩] (by decide) ⟨(" abcd ef").toList, 0⟩ (by decide)
  exact absurd hres (by decide)

/-- C3 amended: every chunk a terminating run emits has text of length
at most `maxSize`, except a chunk emitted by the space-at-index-0
branch, which is the entire remaining suffix and may be arbitrarily
long and contain further spaces.  (A suffix with no space at or before
`maxSize` emits nothing: the loop never terminates on it.) -/
theorem createTextChunks_size (maxSize : Nat) (parts : List TextPart) (chunks : List Chunk)
    (_hms : 1 ≤ maxSize) (h : createTextChunks maxSize parts = some chunks) :
    ∀ c ∈ chunks, c.text.length ≤ maxSize ∨ lastIndexOfSpace c.text maxSize = some 0 := by
  unfold createTextChunks at h
  exact chunkLoop_size maxSize _ _ _ chunks h

theorem createTextChunks_size_witness :
    (1 ≤ 6 ∧
      createTextChunks 6 [⟨0, ("ab cd").toList⟩] =
        some [⟨("ab").toList, 0⟩, ⟨(" cd").toList, 2⟩]) ∧
    ∀ c ∈ ([⟨("ab").toList, 0⟩, ⟨(" cd").toList, 2⟩] : List Chunk),
      c.text.length ≤ 6 ∨ lastIndexOfSpace c.text 6 = some 0 :=
  ⟨⟨by decide, by decide⟩,
   createTextChunks_size 6 [⟨0, ("ab cd").toList⟩] _ (by decide) (by decide)⟩

/-- C4: the code violates the claim.  On the spaceless input `"abc"`
with `maxSize = 6`, `lastIndexOf` returns `-1`; that branch sets
`length = text.length` but pushes nothing and consumes nothing, so the
`while` loop never terminates and no chunks are ever produced — for any
fuel budget the loop state repeats unchanged. -/
theorem createTextChunks_diverges_on_spaceless :
    createTextChunks 6 [⟨0, ("abc").toList⟩] = none ∧
    ∀ fuel offset : Nat, chunkLoop 6 fuel (("abc").toList) offset = none :=
  ⟨by decide,
   fun fuel offset =>
     chunkLoop_none_of_no_space 6 (("abc").toList) (by decide) (by decide) fuel offset⟩

/-- C5: records are written strictly in the supplied order.  If every
write succeeds, `indexArrays` attempts exactly all records of all
collections in order and reports a null error; on the first failing
write, the attempted writes are exactly the records preceding the
failure plus the failing record itself — nothing later in its
collection and no later collection is attempted — and the reported
error's message names the failing collection's type. -/
theorem indexArrays_pipeline {α : Type} (write : String → α → Option JsError) :
    (∀ lists : List (TypedList α),
        (∀ w ∈ lists, ∀ it ∈ w.list, write w.type it = none) →
        indexArrays write lists = (typedItems lists, none)) ∧
    (∀ (pre : List (TypedList α)) (ty : String) (l1 : List α) (item : α) (l2 : List α)
        (post : List (TypedList α)) (e : JsError),
        (∀ w ∈ pre, ∀ it ∈ w.list, write w.type it = none) →
        (∀ it ∈ l1, write ty it = none) →
        write ty item = some e →
        indexArrays write (pre ++ ⟨ty, l1 ++ item :: l2⟩ :: post) =
          (typedItems pre ++ (l1 ++ [item]).map (fun it => (ty, it)),
           some ⟨"Error while indexing " ++ ty⟩)) :=
  ⟨indexArrays_ok write,
   fun pre ty l1 item l2 post e hpre h1 hitem =>
     indexArrays_fail write ty l1 item l2 e h1 hitem post pre hpre⟩

theorem indexArrays_pipeline_witness :
    ((∀ w ∈ ([] : List (TypedList String)), ∀ it ∈ w.list, failOnB w.type it = none) ∧
     (∀ it ∈ (["A"] : List String), failOnB "text" it = none) ∧
     failOnB "text" "B" = some ⟨"boom"⟩) ∧
    indexArrays failOnB ([] ++ ⟨"text", ["A"] ++ "B" :: []⟩ :: [⟨"semantics", ["C"]⟩]) =
      (typedItems ([] : List (TypedList String)) ++
        (["A"] ++ ["B"]).map (fun it => ("text", it)),
       some ⟨"Error while indexing " ++ "text"⟩) :=
  ⟨⟨by decide, by decide, by decide⟩,
   (indexArrays_pipeline failOnB).2 [] "text" ["A"] "B" [] [⟨"semantics", ["C"]⟩] ⟨"boom"⟩
     (by decide) (by decide) (by decide)⟩

/-- C6: on a non-empty collection whose records, sorted by `start`, tile
`[0, N)` and concatenate to the original text, `reconstructRange(0, N)`
returns the original text paired with bounds `0` and `N`; and on any
non-empty collection, `reconstructRange(null, null)` returns the texts
concatenated in ascending `start` order with no bounds in the result. -/
theorem joinTextChunksAndTrim_correct :
    (∀ (records : List SourceRec) (original : List Char),
        records ≠ [] →
        contiguousFrom 0 (sortByStart records) = true →
        ((sortByStart records).map (fun r => r.text)).flatten = original →
        joinTextChunksAndTrim (some 0) (some (original.length : Int)) records =
          ⟨original, some 0, some (original.length : Int)⟩) ∧
    (∀ records : List SourceRec, records ≠ [] →
        ∃ sorted : List SourceRec, sorted.Perm records ∧
          sorted.Sorted (fun a b => a.start ≤ b.start) ∧
          joinTextChunksAndTrim none none records =
            ⟨(sorted.map (fun r => r.text)).flatten, none, none⟩) := by
  constructor
  · intro records original hne hcont hjoin
    have hlen : ¬ records.length = 0 := by simpa [List.length_eq_zero] using hne
    cases hs : sortByStart records with
    | nil => exact absurd hs (sortByStart_ne_nil hne)
    | cons f rest =>
      rw [hs] at hcont hjoin
      simp only [contiguousFrom, Bool.and_eq_true, beq_iff_eq] at hcont
      obtain ⟨⟨hstart, _⟩, _⟩ := hcont
      simp only [joinTextChunksAndTrim, if_neg hlen, hs, List.headD_cons]
      rw [hjoin, hstart, sub_zero, sub_zero]
      rw [jsSubstr_zero_length]
  · intro records hne
    have hlen : ¬ records.length = 0 := by simpa [List.length_eq_zero] using hne
    refine ⟨sortByStart records, List.perm_insertionSort _ records,
      List.sorted_insertionSort _ records, ?_⟩
    simp only [joinTextChunksAndTrim, if_neg hlen]

theorem joinTextChunksAndTrim_correct_witness :
    (([recLo, recHel] : List SourceRec) ≠ [] ∧
     contiguousFrom 0 (sortByStart [recLo, recHel]) = true ∧
     ((sortByStart [recLo, recHel]).map (fun r => r.text)).flatten = ("hello").toList) ∧
    joinTextChunksAndTrim (some 0) (some ((("hello").toList.length : Nat) : Int))
        [recLo, recHel] =
      ⟨("hello").toList, some 0, some (("hello").toList.length : Int)⟩ :=
  ⟨⟨by decide, by decide, by decide⟩,
   joinTextChunksAndTrim_correct.1 [recLo, recHel] (("hello").toList)
     (by decide) (by decide) (by decide)⟩

/-- C7: the query built by `buildRangeQuery` selects exactly the records
of the given `textId` with `record.start < end` and `record.end >= start`;
the record `(5, 15)` matches the window `(10, 12)`, the record `(0, 5)`
does not, and the result size is capped at the fixed `1000000`. -/
theorem buildRangeQuery_overlap :
    (∀ (idx tid : String) (s e : Int) (r : SourceRec),
        matchesRangeQuery (buildRangeQuery idx tid s e) r = true ↔
          (r.textId = tid ∧ r.start < e ∧ r.end_ ≥ s)) ∧
    matchesRangeQuery (buildRangeQuery "textus" "t" 10 12) ⟨"t", [], 5, 15, none⟩ = true ∧
    matchesRangeQuery (buildRangeQuery "textus" "t" 10 12) ⟨"t", [], 0, 5, none⟩ = false ∧
    ∀ (idx tid : String) (s e : Int), (buildRangeQuery idx tid s e).size = 1000000 := by
  refine ⟨?_, by decide, by decide, fun _ _ _ _ => rfl⟩
  intro idx tid s e r
  simp [matchesRangeQuery, buildRangeQuery, and_assoc, ge_iff_le]

/-- C8: `joinTextChunksAndTrim` on an empty record collection returns
`{text: "", start: 0, end: 0}` for every requested window, the
null/null whole-text request included. -/
theorem joinTextChunksAndTrim_empty (start0 end0 : Option Int) :
    joinTextChunksAndTrim start0 end0 [] = ⟨[], some 0, some 0⟩ := rfl

/-- C9: both `updateTextMetadata` and `importData` overwrite the
caller-supplied metadata's `date` field before writing it to the store,
and the value assigned is the uninvoked `Date.now` — a function
reference, never a numeric timestamp. -/
theorem metadata_date_is_function_reference :
    (∀ (store : MetaStore) (textId : String) (m : Metadata),
        (updateTextMetadata store textId m).1.date = jsDateNow ∧
        ∀ n : Int, (updateTextMetadata store textId m).1.date ≠ JsValue.num n) ∧
    (∀ (store : Store) (data : ImportData) (r : ImportOutcome),
        importData store data = some r →
        r.structureWritten.date = jsDateNow ∧
        ∀ n : Int, r.structureWritten.date ≠ JsValue.num n) := by
  constructor
  · intro store textId m
    exact ⟨rfl, fun n hn => JsValue.noConfusion hn⟩
  · intro store data r h
    simp only [importData] at h
    split at h
    · injection h with h2
      rw [← h2]
      exact ⟨rfl, fun n hn => JsValue.noConfusion hn⟩
    · split at h
      · exact absurd h (by simp)
      · injection h with h2
        rw [← h2]
        exact ⟨rfl, fun n hn => JsValue.noConfusion hn⟩

theorem metadata_date_is_function_reference_witness :
    importData failTextStore importEx = some importExOutcome ∧
    (importExOutcome.structureWritten.date = jsDateNow ∧
     ∀ n : Int, importExOutcome.structureWritten.date ≠ JsValue.num n) :=
  ⟨by decide,
   metadata_date_is_function_reference.2 failTextStore importEx importExOutcome (by decide)⟩

/-- C10: on a successful search result containing a hit of the
unrecognized type `"wibble"`, `fetchText` hands its callback a non-null
unknown-result-type error together with the fully assembled data object
built from the recognized hits — not exactly one of the two. -/
theorem fetchText_error_and_data :
    (fetchText "t1" (some 0) (some 5) hitsEx).1 = some "Unknown result type! 'wibble'." ∧
    (fetchText "t1" (some 0) (some 5) hitsEx).2 =
      ⟨"t1", ("hello").toList, [⟨"t1", [], 1, 2, some "id2"⟩], [], some 0, some 5⟩ := by decide
